import Mathlib

/-!
Verification development for the pkg-config core (`src/pkg.c`, `src/parse.c`).

C strings are modelled as `List Char` (`Str`); machine pointers walking a
string become recursion over the list.  GLib hash tables keyed by string
contents (`g_str_hash` / `g_str_equal`) are modelled as association lists
looked up by value.  `exit(1)` after a diagnostic is modelled with
`Except Diag`, and lax-mode diagnostics are collected in a list.
The `Package` structure itself is declared in `pkg.h`, which is not part of
the sources; its fields follow the spec's data model (§3) and the way the
two source files use them.
-/

namespace PkgConfig

/-- C strings: a `char *` is a list of characters (NUL terminator implicit). -/
abbrev Str := List Char

/-- ASCII `isdigit` from `<ctype.h>` (C locale): bytes `'0'`..`'9'`. -/
def cIsdigit (c : Char) : Bool := 48 ≤ c.toNat && c.toNat ≤ 57

/-- ASCII `isalpha` from `<ctype.h>` (C locale): bytes `'A'`..`'Z'` and `'a'`..`'z'`. -/
def cIsalpha (c : Char) : Bool :=
  (97 ≤ c.toNat && c.toNat ≤ 122) || (65 ≤ c.toNat && c.toNat ≤ 90)

/-- ASCII `isalnum` from `<ctype.h>` (C locale). -/
def cIsalnum (c : Char) : Bool := cIsdigit c || cIsalpha c

/-- ASCII `isspace` from `<ctype.h>` (C locale): space, \t, \n, \v, \f, \r. -/
def cIsspace (c : Char) : Bool := c.toNat = 32 || (9 ≤ c.toNat && c.toNat ≤ 13)

/-- C `strcmp`, collapsed to its sign (-1, 0, 1); the callers in `pkg.c`
only use the sign of the result. -/
def strCmp : Str → Str → Int
  | [], [] => 0
  | [], _ :: _ => -1
  | _ :: _, [] => 1
  | a :: xs, b :: ys =>
    if a < b then -1 else if b < a then 1 else strCmp xs ys

/-! ### Version comparator (`rpmvercmp`, pkg.c lines 909-996)

The C `while (*one && *two)` loop is embedded as a fuel-indexed recursion;
every continuing iteration consumes at least one character from each of the
two strings, so fuel `|a| + |b| + 1` is never exhausted (see
`rpmloop_fuel_irrelevant`). -/

/-- Skip the leading non-alphanumeric bytes: `while (*one && !isalnum(*one)) one++`. -/
def skipSep (s : Str) : Str := s.dropWhile (fun c => !cIsalnum c)

/-- Maximal leading digit run. -/
def digitRun (s : Str) : Str := s.takeWhile cIsdigit

/-- Remainder after the leading digit run. -/
def afterDigitRun (s : Str) : Str := s.dropWhile cIsdigit

/-- Maximal leading alphabetic run. -/
def alphaRun (s : Str) : Str := s.takeWhile cIsalpha

/-- Remainder after the leading alphabetic run. -/
def afterAlphaRun (s : Str) : Str := s.dropWhile cIsalpha

/-- Does the string start with a digit (`isdigit(*str1)` on a possibly
empty segment start)? -/
def headIsDigit : Str → Bool
  | [] => false
  | c :: _ => cIsdigit c

/-- The numeric-segment comparison of `rpmvercmp`: throw away leading
zeros, the longer remaining digit string wins, otherwise `strcmp`. -/
def numSegCmp (s1 s2 : Str) : Int :=
  let z1 := s1.dropWhile (fun c => c = '0')
  let z2 := s2.dropWhile (fun c => c = '0')
  if z1.length > z2.length then 1
  else if z2.length > z1.length then -1
  else strCmp z1 z2

/-- One `rpmvercmp` loop, fuel-indexed.  `one` and `two` are the positions
reached at the loop condition `while (*one && *two)`; `0` is returned on
fuel exhaustion, which is never reached from `rpmvercmp`'s initial fuel. -/
def rpmloop : Nat → Str → Str → Int
  | 0, _, _ => 0
  | Nat.succ fuel, one, two =>
    if one = [] ∨ two = [] then
      -- post-loop: if ((!*one) && (!*two)) return 0; if (!*one) return -1; else return 1
      if one = [] ∧ two = [] then 0
      else if one = [] then -1
      else 1
    else
      if headIsDigit (skipSep one) then
        -- numeric segment: one == str1 is impossible, two == str2 iff two's run is empty
        if digitRun (skipSep two) = [] then -1
        else if numSegCmp (digitRun (skipSep one)) (digitRun (skipSep two)) = 0 then
          rpmloop fuel (afterDigitRun (skipSep one)) (afterDigitRun (skipSep two))
        else numSegCmp (digitRun (skipSep one)) (digitRun (skipSep two))
      else
        -- alphabetic segment: one == str1 iff one's alpha run is empty, same for two
        if alphaRun (skipSep one) = [] then -1
        else if alphaRun (skipSep two) = [] then -1
        else if strCmp (alphaRun (skipSep one)) (alphaRun (skipSep two)) = 0 then
          rpmloop fuel (afterAlphaRun (skipSep one)) (afterAlphaRun (skipSep two))
        else strCmp (alphaRun (skipSep one)) (alphaRun (skipSep two))

/-- `rpmvercmp` (pkg.c line 909): early `strcmp` equality check, then the
segment loop. -/
def rpmvercmp (a b : Str) : Int :=
  if a = b then 0 else rpmloop (a.length + b.length + 1) a b

/-- `compare_versions` (pkg.c line 998). -/
def compare_versions (a b : Str) : Int := rpmvercmp a b

/-- `ComparisonType` from `pkg.h` (used throughout both sources). -/
inductive ComparisonType where
  | LESS_THAN
  | GREATER_THAN
  | LESS_THAN_EQUAL
  | GREATER_THAN_EQUAL
  | EQUAL
  | NOT_EQUAL
  | ALWAYS_MATCH
deriving DecidableEq, Repr

/-- `version_test` (pkg.c line 1004). -/
def version_test (comparison : ComparisonType) (a b : Str) : Bool :=
  match comparison with
  | .LESS_THAN => compare_versions a b < 0
  | .GREATER_THAN => compare_versions a b > 0
  | .LESS_THAN_EQUAL => compare_versions a b ≤ 0
  | .GREATER_THAN_EQUAL => compare_versions a b ≥ 0
  | .EQUAL => compare_versions a b = 0
  | .NOT_EQUAL => compare_versions a b ≠ 0
  | .ALWAYS_MATCH => true

/-- `comparison_to_str` (pkg.c line 1047). -/
def comparison_to_str (comparison : ComparisonType) : Str :=
  match comparison with
  | .LESS_THAN => "<".data
  | .GREATER_THAN => ">".data
  | .LESS_THAN_EQUAL => "<=".data
  | .GREATER_THAN_EQUAL => ">=".data
  | .EQUAL => "=".data
  | .NOT_EQUAL => "!=".data
  | .ALWAYS_MATCH => "(any)".data

/-! ### Lemmas about the version comparator -/

theorem strCmp_antisym : ∀ x y : Str, strCmp y x = - strCmp x y := by
  intro x
  induction x with
  | nil => intro y; cases y <;> simp [strCmp]
  | cons a xs ih =>
    intro y
    cases y with
    | nil => simp [strCmp]
    | cons b ys =>
      by_cases hab : a < b
      · have hba : ¬ b < a := lt_asymm hab
        simp [strCmp, hab, hba]
      · by_cases hba : b < a
        · simp [strCmp, hab, hba]
        · have : a = b := le_antisymm (not_lt.mp hba) (not_lt.mp hab)
          subst this
          simp only [strCmp, lt_self_iff_false, if_false]
          exact ih ys

theorem numSegCmp_antisym (s1 s2 : Str) : numSegCmp s2 s1 = - numSegCmp s1 s2 := by
  unfold numSegCmp
  simp only [gt_iff_lt]
  rcases Nat.lt_trichotomy (List.dropWhile (fun c => c = '0') s1).length
      (List.dropWhile (fun c => c = '0') s2).length with h | h | h
  · have h' : ¬ (List.dropWhile (fun c => c = '0') s2).length <
        (List.dropWhile (fun c => c = '0') s1).length := by omega
    rw [if_pos h, if_neg h', if_pos h]
    decide
  · have ha : ¬ (List.dropWhile (fun c => c = '0') s1).length <
        (List.dropWhile (fun c => c = '0') s2).length := by omega
    have hb : ¬ (List.dropWhile (fun c => c = '0') s2).length <
        (List.dropWhile (fun c => c = '0') s1).length := by omega
    rw [if_neg ha, if_neg hb, if_neg hb, if_neg ha]
    exact strCmp_antisym _ _
  · have h' : ¬ (List.dropWhile (fun c => c = '0') s1).length <
        (List.dropWhile (fun c => c = '0') s2).length := by omega
    rw [if_neg h', if_pos h, if_pos h]

theorem cIsdigit_not_alpha {c : Char} (h : cIsdigit c = true) : cIsalpha c = false := by
  simp [cIsdigit] at h
  simp [cIsalpha]
  omega

theorem cIsalnum_not_digit_alpha {c : Char} (h : cIsalnum c = true)
    (hd : cIsdigit c = false) : cIsalpha c = true := by
  simp [cIsalnum, hd] at h
  exact h

theorem skipSep_head_alnum : ∀ {s : Str} {c : Char} {rest : Str},
    skipSep s = c :: rest → cIsalnum c = true := by
  intro s
  induction s with
  | nil => intro c rest h; simp [skipSep] at h
  | cons a as ih =>
    intro c rest h
    by_cases ha : cIsalnum a
    · rw [skipSep, List.dropWhile_cons_of_neg (by simp [ha])] at h
      cases h; exact ha
    · rw [skipSep, List.dropWhile_cons_of_pos (by simp [ha])] at h
      exact ih h

theorem digitRun_ne_nil_of_head {s : Str} (h : headIsDigit s = true) :
    digitRun s ≠ [] := by
  cases s with
  | nil => simp [headIsDigit] at h
  | cons c r =>
    simp only [headIsDigit] at h
    simp [digitRun, List.takeWhile_cons, h]

theorem digitRun_eq_nil_of_head {s : Str} (h : headIsDigit s = false) :
    digitRun s = [] := by
  cases s with
  | nil => simp [digitRun]
  | cons c r =>
    simp only [headIsDigit] at h
    simp [digitRun, List.takeWhile_cons, h]

theorem alphaRun_eq_nil_of_headIsDigit {s : Str} (h : headIsDigit s = true) :
    alphaRun s = [] := by
  cases s with
  | nil => simp [alphaRun]
  | cons c r =>
    simp only [headIsDigit] at h
    simp [alphaRun, List.takeWhile_cons, cIsdigit_not_alpha h]

theorem alphaRun_skipSep_ne_nil {s : Str} (hne : skipSep s ≠ [])
    (h : headIsDigit (skipSep s) = false) : alphaRun (skipSep s) ≠ [] := by
  rcases hcons : skipSep s with _ | ⟨c, rest⟩
  · exact absurd hcons hne
  · rw [hcons] at h
    simp only [headIsDigit] at h
    have halnum := skipSep_head_alnum hcons
    simp [alphaRun, List.takeWhile_cons, cIsalnum_not_digit_alpha halnum h]

theorem length_takeWhile_add_dropWhile (p : Char → Bool) (s : Str) :
    (s.takeWhile p).length + (s.dropWhile p).length = s.length := by
  rw [← List.length_append, List.takeWhile_append_dropWhile]

theorem length_skipSep_le (s : Str) : (skipSep s).length ≤ s.length := by
  have := length_takeWhile_add_dropWhile (fun c => !cIsalnum c) s
  unfold skipSep
  omega

theorem length_dropWhile_lt_of_takeWhile_ne_nil {p : Char → Bool} {s : Str}
    (h : s.takeWhile p ≠ []) : (s.dropWhile p).length < s.length := by
  have hsplit := length_takeWhile_add_dropWhile p s
  have hpos : 0 < (s.takeWhile p).length := List.length_pos.mpr h
  omega

theorem length_afterDigitRun_lt {s : Str} (h : digitRun s ≠ []) :
    (afterDigitRun s).length < s.length :=
  length_dropWhile_lt_of_takeWhile_ne_nil h

theorem length_afterAlphaRun_lt {s : Str} (h : alphaRun s ≠ []) :
    (afterAlphaRun s).length < s.length :=
  length_dropWhile_lt_of_takeWhile_ne_nil h

/-- The fuel given to `rpmloop` is irrelevant as long as it exceeds the sum
of the lengths: every continuing iteration strictly shrinks both strings.
This justifies embedding the C `while` loop with initial fuel
`|a| + |b| + 1`. -/
theorem rpmloop_fuel_irrelevant : ∀ (fuel fuel' : Nat) (one two : Str),
    one.length + two.length < fuel → one.length + two.length < fuel' →
    rpmloop fuel one two = rpmloop fuel' one two := by
  intro fuel
  induction fuel with
  | zero => intro fuel' one two h; omega
  | succ fuel ih =>
    intro fuel' one two h h'
    cases fuel' with
    | zero => omega
    | succ fuel' =>
      by_cases h1 : one = []
      · simp [rpmloop, h1]
      · by_cases h2 : two = []
        · simp [rpmloop, h1, h2]
        · have hone : 0 < one.length := List.length_pos.mpr h1
          have htwo : 0 < two.length := List.length_pos.mpr h2
          rw [rpmloop, rpmloop]
          simp only [h1, h2, or_self, if_false]
          by_cases hd1 : headIsDigit (skipSep one) = true
          · simp only [hd1, if_true]
            by_cases hdt : digitRun (skipSep two) = []
            · simp [hdt]
            · simp only [hdt, if_false]
              by_cases hz : numSegCmp (digitRun (skipSep one)) (digitRun (skipSep two)) = 0
              · simp only [hz, if_true]
                have l1 : (afterDigitRun (skipSep one)).length < one.length :=
                  lt_of_lt_of_le (length_afterDigitRun_lt (digitRun_ne_nil_of_head hd1))
                    (length_skipSep_le one)
                have l2 : (afterDigitRun (skipSep two)).length < two.length :=
                  lt_of_lt_of_le (length_afterDigitRun_lt hdt) (length_skipSep_le two)
                exact ih fuel' _ _ (by omega) (by omega)
              · simp [hz]
          · simp only [Bool.not_eq_true] at hd1
            simp only [hd1, Bool.false_eq_true, if_false]
            by_cases hao : alphaRun (skipSep one) = []
            · simp [hao]
            · simp only [hao, if_false]
              by_cases hat : alphaRun (skipSep two) = []
              · simp [hat]
              · simp only [hat, if_false]
                by_cases hz : strCmp (alphaRun (skipSep one)) (alphaRun (skipSep two)) = 0
                · simp only [hz, if_true]
                  have l1 : (afterAlphaRun (skipSep one)).length < one.length :=
                    lt_of_lt_of_le (length_afterAlphaRun_lt hao) (length_skipSep_le one)
                  have l2 : (afterAlphaRun (skipSep two)).length < two.length :=
                    lt_of_lt_of_le (length_afterAlphaRun_lt hat) (length_skipSep_le two)
                  exact ih fuel' _ _ (by omega) (by omega)
                · simp [hz]

/-- At equal fuel, one `rpmloop` run against the swapped run: either the
results are exact negations of each other, or both runs hit the
type-mismatch tiebreak and both return -1. -/
theorem rpmloop_antisym : ∀ (fuel : Nat) (one two : Str),
    rpmloop fuel two one = - rpmloop fuel one two ∨
    (rpmloop fuel one two = -1 ∧ rpmloop fuel two one = -1) := by
  intro fuel
  induction fuel with
  | zero => intro one two; left; simp [rpmloop]
  | succ fuel ih =>
    intro one two
    by_cases h1 : one = []
    · by_cases h2 : two = [] <;> (left; simp [rpmloop, h1, h2])
    · by_cases h2 : two = []
      · left; simp [rpmloop, h1, h2]
      · rw [rpmloop, rpmloop]
        have no12 : ¬ (one = [] ∨ two = []) := by simp [h1, h2]
        have no21 : ¬ (two = [] ∨ one = []) := by simp [h1, h2]
        rw [if_neg no21, if_neg no12]
        by_cases hd1 : headIsDigit (skipSep one) = true
        · by_cases hd2 : headIsDigit (skipSep two) = true
          · -- both sides start a numeric segment
            have dO := digitRun_ne_nil_of_head hd1
            have dT := digitRun_ne_nil_of_head hd2
            rw [if_pos hd2, if_pos hd1, if_neg dO, if_neg dT]
            by_cases hz : numSegCmp (digitRun (skipSep one)) (digitRun (skipSep two)) = 0
            · have hz' : numSegCmp (digitRun (skipSep two)) (digitRun (skipSep one)) = 0 := by
                rw [numSegCmp_antisym, hz]; simp
              rw [if_pos hz', if_pos hz]
              exact ih (afterDigitRun (skipSep one)) (afterDigitRun (skipSep two))
            · have hz' : ¬ numSegCmp (digitRun (skipSep two)) (digitRun (skipSep one)) = 0 := by
                rw [numSegCmp_antisym]; simpa using hz
              rw [if_neg hz', if_neg hz]
              left
              exact numSegCmp_antisym _ _
          · -- one numeric, two not: the tiebreak fires in both directions
            have hd2f : headIsDigit (skipSep two) = false := by
              simpa using hd2
            have hdt : digitRun (skipSep two) = [] := digitRun_eq_nil_of_head hd2f
            have hao : alphaRun (skipSep one) = [] := alphaRun_eq_nil_of_headIsDigit hd1
            by_cases htn : skipSep two = []
            · have hat : alphaRun (skipSep two) = [] := by simp [htn, alphaRun]
              simp [hd1, hd2f, hdt, hat]
            · have hat : alphaRun (skipSep two) ≠ [] := alphaRun_skipSep_ne_nil htn hd2f
              simp [hd1, hd2f, hdt, hat, hao]
        · by_cases hd2 : headIsDigit (skipSep two) = true
          · -- two numeric, one not: the tiebreak fires in both directions
            have hd1f : headIsDigit (skipSep one) = false := by
              simpa using hd1
            have hdo : digitRun (skipSep one) = [] := digitRun_eq_nil_of_head hd1f
            have hat : alphaRun (skipSep two) = [] := alphaRun_eq_nil_of_headIsDigit hd2
            by_cases hon : skipSep one = []
            · have hao : alphaRun (skipSep one) = [] := by simp [hon, alphaRun]
              simp [hd2, hd1f, hdo, hao]
            · have hao : alphaRun (skipSep one) ≠ [] := alphaRun_skipSep_ne_nil hon hd1f
              simp [hd2, hd1f, hdo, hao, hat]
          · -- both alphabetic (or exhausted after the separator skip)
            have hd1f : headIsDigit (skipSep one) = false := by
              simpa using hd1
            have hd2f : headIsDigit (skipSep two) = false := by
              simpa using hd2
            rw [if_neg hd2, if_neg hd1]
            by_cases hon : skipSep one = []
            · have hao : alphaRun (skipSep one) = [] := by simp [hon, alphaRun]
              by_cases htn : skipSep two = []
              · have hat : alphaRun (skipSep two) = [] := by simp [htn, alphaRun]
                simp [hao, hat]
              · have hat : alphaRun (skipSep two) ≠ [] := alphaRun_skipSep_ne_nil htn hd2f
                simp [hao, hat]
            · have hao : alphaRun (skipSep one) ≠ [] := alphaRun_skipSep_ne_nil hon hd1f
              by_cases htn : skipSep two = []
              · have hat : alphaRun (skipSep two) = [] := by simp [htn, alphaRun]
                simp [hao, hat]
              · have hat : alphaRun (skipSep two) ≠ [] := alphaRun_skipSep_ne_nil htn hd2f
                rw [if_neg hat, if_neg hao, if_neg hao, if_neg hat]
                by_cases hz : strCmp (alphaRun (skipSep one)) (alphaRun (skipSep two)) = 0
                · have hz' : strCmp (alphaRun (skipSep two)) (alphaRun (skipSep one)) = 0 := by
                    rw [strCmp_antisym, hz]; simp
                  rw [if_pos hz', if_pos hz]
                  exact ih (afterAlphaRun (skipSep one)) (afterAlphaRun (skipSep two))
                · have hz' : ¬ strCmp (alphaRun (skipSep two)) (alphaRun (skipSep one)) = 0 := by
                    rw [strCmp_antisym]; simpa using hz
                  rw [if_neg hz', if_neg hz]
                  left
                  exact strCmp_antisym _ _

/-- C2 counterexample: the claimed antisymmetry law
`sign(compare_versions(a,b)) = -sign(compare_versions(b,a))` fails at
`a = "1"`, `b = "a"`: the type-mismatch tiebreak of `rpmvercmp` returns
-1 in both directions. -/
theorem C2_counterexample :
    ¬ (Int.sign (compare_versions "1".data "a".data) =
        - Int.sign (compare_versions "a".data "1".data)) := by
  decide

/-- C2 (amended): for every version string `a`, `compare_versions(a,a) = 0`;
and for all strings `a`, `b`, either
`sign(compare_versions(a,b)) = -sign(compare_versions(b,a))` holds, or both
comparisons hit the type-mismatch tiebreak and both return -1. -/
theorem C2_compare_versions_total_mod_tiebreak :
    (∀ a : Str, compare_versions a a = 0) ∧
    (∀ a b : Str, Int.sign (compare_versions a b) = - Int.sign (compare_versions b a) ∨
      (compare_versions a b = -1 ∧ compare_versions b a = -1)) := by
  constructor
  · intro a
    simp [compare_versions, rpmvercmp]
  · intro a b
    by_cases hab : a = b
    · subst hab
      left
      simp [compare_versions, rpmvercmp]
    · have hba : ¬ b = a := fun h => hab h.symm
      unfold compare_versions rpmvercmp
      rw [if_neg hab, if_neg hba]
      have hfuel : b.length + a.length + 1 = a.length + b.length + 1 := by omega
      rw [hfuel]
      rcases rpmloop_antisym (a.length + b.length + 1) a b with h | h
      · left
        rw [h, Int.sign_neg, neg_neg]
      · right
        exact h

/-! ### Duplicate stripping (pkg.c lines 276-334)

Both C functions run the same loop: walk the input, keep a hash table of
strings already seen, and prepend each unseen string to an accumulator
(which reverses the walk order).  The forward variant reverses the
accumulator at the end; the from-back variant walks the reversed input and
keeps the accumulator as is (the prepends un-reverse it). -/

/-- The shared loop of `string_list_strip_duplicates` and
`string_list_strip_duplicates_from_back`: `seen` is the hash table keyed by
string contents, `nodups` the prepend-accumulator. -/
def stripLoop (seen : List Str) (nodups : List Str) : List Str → List Str
  | [] => nodups
  | x :: xs =>
    if x ∈ seen then stripLoop seen nodups xs
    else stripLoop (x :: seen) (x :: nodups) xs

/-- `string_list_strip_duplicates` (pkg.c line 276): loop, then
`g_slist_reverse`. -/
def string_list_strip_duplicates (list : List Str) : List Str :=
  (stripLoop [] [] list).reverse

/-- `string_list_strip_duplicates_from_back` (pkg.c line 304): reverse the
input, loop; the prepends un-reverse the result. -/
def string_list_strip_duplicates_from_back (list : List Str) : List Str :=
  stripLoop [] [] list.reverse

/-- Specification-level "keep the first occurrence of every element,
preserving relative order": keep the head, drop every later repeat of it,
recurse. -/
def keepFirst : List Str → List Str
  | [] => []
  | x :: xs => x :: keepFirst (xs.filter (fun y => y ≠ x))
termination_by l => l.length
decreasing_by
  simp only [List.length_cons]
  exact Nat.lt_succ_of_le (List.length_filter_le _ _)

theorem keepFirst_nil : keepFirst [] = [] := by
  rw [keepFirst]

theorem keepFirst_cons (x : Str) (xs : List Str) :
    keepFirst (x :: xs) = x :: keepFirst (xs.filter (fun y => y ≠ x)) := by
  rw [keepFirst]

theorem filter_filter_notmem (x : Str) (seen : List Str) (ys : List Str) :
    (ys.filter (fun y => y ∉ seen)).filter (fun y => y ≠ x) =
      ys.filter (fun y => y ∉ x :: seen) := by
  rw [List.filter_filter]
  apply List.filter_congr
  intro y _
  by_cases hx : y = x <;> by_cases hs : y ∈ seen <;> simp [hx, hs]

theorem stripLoop_eq_keepFirst : ∀ (xs seen nodups : List Str),
    (stripLoop seen nodups xs).reverse =
      nodups.reverse ++ keepFirst (xs.filter (fun y => y ∉ seen)) := by
  intro xs
  induction xs with
  | nil => intro seen nodups; simp [stripLoop, keepFirst_nil]
  | cons x xs ih =>
    intro seen nodups
    by_cases hx : x ∈ seen
    · rw [stripLoop, if_pos hx, ih, List.filter_cons_of_neg (by simp [hx])]
    · rw [stripLoop, if_neg hx, ih, List.filter_cons_of_pos (by simp [hx])]
      rw [keepFirst, filter_filter_notmem]
      simp

theorem keepFirst_sublist_aux : ∀ (n : Nat) (l : List Str),
    l.length ≤ n → List.Sublist (keepFirst l) l := by
  intro n
  induction n with
  | zero =>
    intro l h
    have : l = [] := List.eq_nil_of_length_eq_zero (Nat.le_zero.mp h)
    subst this
    simp [keepFirst_nil]
  | succ n ih =>
    intro l h
    cases l with
    | nil => simp [keepFirst_nil]
    | cons x xs =>
      rw [keepFirst]
      apply List.Sublist.cons₂
      exact (ih _ (le_trans (List.length_filter_le _ _) (by simpa using h))).trans
        (List.filter_sublist xs)

theorem keepFirst_sublist (l : List Str) : List.Sublist (keepFirst l) l :=
  keepFirst_sublist_aux l.length l le_rfl

theorem keepFirst_nodup_aux : ∀ (n : Nat) (l : List Str),
    l.length ≤ n → (keepFirst l).Nodup := by
  intro n
  induction n with
  | zero =>
    intro l h
    have : l = [] := List.eq_nil_of_length_eq_zero (Nat.le_zero.mp h)
    subst this
    simp [keepFirst_nil]
  | succ n ih =>
    intro l h
    cases l with
    | nil => simp [keepFirst_nil]
    | cons x xs =>
      rw [keepFirst]
      refine List.nodup_cons.mpr ⟨?_, ih _ (le_trans (List.length_filter_le _ _) (by simpa using h))⟩
      intro hmem
      have hsub := keepFirst_sublist (xs.filter (fun y => y ≠ x))
      have := hsub.subset hmem
      simp at this

theorem keepFirst_nodup (l : List Str) : (keepFirst l).Nodup :=
  keepFirst_nodup_aux l.length l le_rfl

theorem mem_keepFirst_aux : ∀ (n : Nat) (l : List Str), l.length ≤ n →
    ∀ x, x ∈ keepFirst l ↔ x ∈ l := by
  intro n
  induction n with
  | zero =>
    intro l h
    have : l = [] := List.eq_nil_of_length_eq_zero (Nat.le_zero.mp h)
    subst this
    simp [keepFirst_nil]
  | succ n ih =>
    intro l h x
    cases l with
    | nil => simp [keepFirst_nil]
    | cons a xs =>
      rw [keepFirst]
      by_cases hxa : x = a
      · simp [hxa]
      · simp only [List.mem_cons, hxa, false_or]
        rw [ih _ (le_trans (List.length_filter_le _ _) (by simpa using h))]
        simp [hxa]

theorem mem_keepFirst (l : List Str) (x : Str) : x ∈ keepFirst l ↔ x ∈ l :=
  mem_keepFirst_aux l.length l le_rfl x

/-- C4: the forward merge (`CflagsI`, `LibsL`) keeps exactly the first
occurrence of each repeated string preserving relative order, and the
from-back merge (`Libsl`, used by `package_get_l_libs` and
`packages_get_l_libs`) keeps exactly the last occurrence (reverse,
keep-first, reverse); concretely `[-lA, -lB, -lA]` merges from the back to
`[-lB, -lA]` and `[-IA, -IB, -IA]` merges forward to `[-IA, -IB]`. -/
theorem C4_strip_duplicates_first_and_last :
    string_list_strip_duplicates_from_back ["-lA".data, "-lB".data, "-lA".data] =
      ["-lB".data, "-lA".data] ∧
    string_list_strip_duplicates ["-IA".data, "-IB".data, "-IA".data] =
      ["-IA".data, "-IB".data] ∧
    (∀ l : List Str, string_list_strip_duplicates l = keepFirst l) ∧
    (∀ l : List Str,
      string_list_strip_duplicates_from_back l = (keepFirst l.reverse).reverse) ∧
    (∀ l : List Str, (string_list_strip_duplicates l).Nodup ∧
      List.Sublist (string_list_strip_duplicates l) l ∧
      ∀ x, x ∈ string_list_strip_duplicates l ↔ x ∈ l) ∧
    (∀ l : List Str, (string_list_strip_duplicates_from_back l).Nodup ∧
      List.Sublist (string_list_strip_duplicates_from_back l) l ∧
      ∀ x, x ∈ string_list_strip_duplicates_from_back l ↔ x ∈ l) := by
  have hfwd : ∀ l : List Str, string_list_strip_duplicates l = keepFirst l := by
    intro l
    unfold string_list_strip_duplicates
    rw [stripLoop_eq_keepFirst]
    simp
  have hback : ∀ l : List Str,
      string_list_strip_duplicates_from_back l = (keepFirst l.reverse).reverse := by
    intro l
    unfold string_list_strip_duplicates_from_back
    have := stripLoop_eq_keepFirst l.reverse [] []
    simp at this
    rw [← this]
    simp
  refine ⟨by decide, by decide, hfwd, hback, ?_, ?_⟩
  · intro l
    rw [hfwd]
    exact ⟨keepFirst_nodup l, keepFirst_sublist l, fun x => mem_keepFirst l x⟩
  · intro l
    rw [hback]
    refine ⟨by simpa using keepFirst_nodup l.reverse, ?_, ?_⟩
    · have h := List.reverse_sublist.mpr (keepFirst_sublist l.reverse)
      rw [List.reverse_reverse] at h
      exact h
    · intro x
      simp [mem_keepFirst]

/-! ### Resolver data model

`pkg.h` is not among the sources; the `Package` and `RequiredVersion`
shapes below follow the spec's data model (§3) and the way `pkg.c` and
`parse.c` use the fields.  GLib hash tables keyed by string contents are
association lists: insertion conses in front, lookup takes the first
match, which models `g_hash_table_insert`'s replace-on-collision. -/

/-- `g_hash_table_lookup` on a string-keyed table. -/
def g_hash_table_lookup {α : Type} (table : List (Str × α)) (key : Str) : Option α :=
  (table.find? (fun kv => kv.1 = key)).map (fun kv => kv.2)

/-- `g_hash_table_insert` on a string-keyed table (replaces an existing
binding, modelled by consing in front of a first-match lookup). -/
def g_hash_table_insert {α : Type} (table : List (Str × α)) (key : Str) (v : α) :
    List (Str × α) :=
  (key, v) :: table

/-- `RequiredVersion` (pkg.h): the `owner` back-pointer is modelled by the
owning package's key, as it is used only for diagnostics (spec §9). -/
structure RequiredVersion where
  name : Str
  comparison : ComparisonType
  version : Option Str
  owner_key : Str
deriving DecidableEq, Repr

/-- The scalar fields of a loaded `Package`.  `name`, `version`,
`description` are nullable pointers checked by `verify_package`. -/
structure PkgData where
  key : Str
  name : Option Str
  version : Option Str
  description : Option Str
  pcfiledir : Str
  vars : List (Str × Str)
  l_libs : List Str
  L_libs : List Str
  I_cflags : List Str
  conflictList : List RequiredVersion
  required_versions : List (Str × RequiredVersion)
  uninstalled : Bool

/-- A loaded package together with its resolved `requires` list.  The
descriptor graph is trusted to be acyclic (spec §4.9), so the structure
reachable from any package is a finite tree. -/
inductive Package where
  | mk (data : PkgData) (requiresList : List Package)

def Package.data : Package → PkgData
  | .mk d _ => d

def Package.requiresList : Package → List Package
  | .mk _ r => r

def Package.key (p : Package) : Str := p.data.key

def Package.name (p : Package) : Option Str := p.data.name

def Package.version (p : Package) : Option Str := p.data.version

def Package.description (p : Package) : Option Str := p.data.description

def Package.pcfiledir (p : Package) : Str := p.data.pcfiledir

def Package.vars (p : Package) : List (Str × Str) := p.data.vars

/-- `get_l_libs` (pkg.c line 360). -/
def get_l_libs (pkg : Package) : List Str := pkg.data.l_libs

/-- `get_L_libs` (pkg.c line 366). -/
def get_L_libs (pkg : Package) : List Str := pkg.data.L_libs

/-- `get_I_cflags` (pkg.c line 372). -/
def get_I_cflags (pkg : Package) : List Str := pkg.data.I_cflags

/-- `get_conflicts` (pkg.c line 378). -/
def get_conflicts (pkg : Package) : List RequiredVersion := pkg.data.conflictList

/-- `get_requires` (pkg.c line 384). -/
def get_requires (pkg : Package) : List Package := pkg.requiresList

mutual

/-- `recursive_fill_list` (pkg.c line 390): append `func pkg`, then recurse
over `pkg->requires` in order (depth-first pre-order). -/
def recursive_fill_list {α : Type} (func : Package → List α) : Package → List α
  | .mk d reqs => func (.mk d reqs) ++ recursive_fill_list_over func reqs

/-- The `while` loop of `recursive_fill_list` over a requires list. -/
def recursive_fill_list_over {α : Type} (func : Package → List α) :
    List Package → List α
  | [] => []
  | p :: ps => recursive_fill_list func p ++ recursive_fill_list_over func ps

end

/-- `string_list_to_string` (pkg.c line 336): append every element followed
by one space character. -/
def string_list_to_string (list : List Str) : Str :=
  list.foldl (fun str d => str ++ d ++ [' ']) []

/-- `get_merged` (pkg.c line 542). -/
def get_merged (pkg : Package) (func : Package → List Str) : Str :=
  string_list_to_string (string_list_strip_duplicates (recursive_fill_list func pkg))

/-- `get_merged_from_back` (pkg.c line 562). -/
def get_merged_from_back (pkg : Package) (func : Package → List Str) : Str :=
  string_list_to_string
    (string_list_strip_duplicates_from_back (recursive_fill_list func pkg))

/-- `get_multi_merged` (pkg.c line 582): fill from every package in order,
then strip and join. -/
def get_multi_merged (pkgs : List Package) (func : Package → List Str) : Str :=
  string_list_to_string (string_list_strip_duplicates (recursive_fill_list_over func pkgs))

/-- `get_multi_merged_from_back` (pkg.c line 609). -/
def get_multi_merged_from_back (pkgs : List Package) (func : Package → List Str) : Str :=
  string_list_to_string
    (string_list_strip_duplicates_from_back (recursive_fill_list_over func pkgs))

/-- `package_get_l_libs` (pkg.c line 636), ignoring the memoization cache. -/
def package_get_l_libs (pkg : Package) : Str := get_merged_from_back pkg get_l_libs

/-- `packages_get_l_libs` (pkg.c line 645). -/
def packages_get_l_libs (pkgs : List Package) : Str :=
  get_multi_merged_from_back pkgs get_l_libs

/-- `package_get_L_libs` (pkg.c line 651), ignoring the memoization cache. -/
def package_get_L_libs (pkg : Package) : Str := get_merged pkg get_L_libs

/-- `packages_get_L_libs` (pkg.c line 661). -/
def packages_get_L_libs (pkgs : List Package) : Str := get_multi_merged pkgs get_L_libs

/-- `package_get_I_cflags` (pkg.c line 737), ignoring the memoization cache. -/
def package_get_I_cflags (pkg : Package) : Str := get_merged pkg get_I_cflags

/-- `packages_get_I_cflags` (pkg.c line 746). -/
def packages_get_I_cflags (pkgs : List Package) : Str := get_multi_merged pkgs get_I_cflags

/-! ### Verification (`verify_package`, pkg.c lines 428-540) -/

/-- The fatal outcomes of `verify_package` (each is a `verbose_error`
followed by `exit(1)` in the C code). -/
inductive VerifyErr where
  | missingName
  | missingVersion
  | missingDescription
  | requiredVersionMismatch (pkgName reqKey : Str) (comparison : ComparisonType)
      (wanted actual : Str)
  | conflict (reqVersion reqName conflictName : Str) (comparison : ComparisonType)
      (conflictVersion : Str)
deriving DecidableEq, Repr

/-- The per-requirement version check of `verify_package` (pkg.c lines
469-496): for each direct requirement with a declared constraint, the
constraint must accept the loaded version. -/
def find_required_version_failure (pkg : Package) : Option VerifyErr :=
  pkg.requiresList.findSome? (fun req =>
    match g_hash_table_lookup pkg.data.required_versions req.key with
    | none => none
    | some ver =>
      if version_test ver.comparison (req.version.getD []) (ver.version.getD []) then none
      else some (.requiredVersionMismatch (pkg.name.getD []) req.key ver.comparison
          (ver.version.getD []) (req.version.getD [])))

/-- The conflict scan of `verify_package` (pkg.c lines 498-536): walk the
transitive requires closure against the transitive conflicts closure and
report the first pair accepted by the version predicate.  Note the C code
compares only versions - it never compares `ver->name` with `req->key`. -/
def find_conflict (pkg : Package) : Option (Package × RequiredVersion) :=
  (recursive_fill_list get_requires pkg).findSome? (fun req =>
    ((recursive_fill_list get_conflicts pkg).find? (fun ver =>
        version_test ver.comparison (req.version.getD []) (ver.version.getD []))).map
      (fun ver => (req, ver)))

/-- `verify_package` (pkg.c line 428): `none` means the package survives,
`some e` that the process exits fatally with diagnostic `e`.  The
`pkg->key == NULL` internal assertion cannot arise here because `key` is
not nullable in the model. -/
def verify_package (pkg : Package) : Option VerifyErr :=
  if pkg.name = none then some .missingName
  else if pkg.version = none then some .missingVersion
  else if pkg.description = none then some .missingDescription
  else
    match find_required_version_failure pkg with
    | some e => some e
    | none =>
      match find_conflict pkg with
      | some (req, ver) =>
        some (.conflict (req.version.getD []) (req.name.getD []) ver.name
          ver.comparison (ver.version.getD []))
      | none => none

/-! ### Variable lookup (pkg.c lines 844-897) -/

/-- `package_get_var` (pkg.c line 844): global override first, then the
package's own variables, then the synthetic `pcfiledir`. -/
def package_get_var (globals : List (Str × Str)) (pkg : Package) (var : Str) :
    Option Str :=
  match g_hash_table_lookup globals var with
  | some v => some v
  | none =>
    match g_hash_table_lookup pkg.vars var with
    | some v => some v
    | none => if var = "pcfiledir".data then some pkg.pcfiledir else none

/-- The `GString` accumulated by `packages_get_var` (pkg.c line 863) just
before the `/* chop last space */` write: each found value followed by one
space character. -/
def packages_get_var_buffer (globals : List (Str × Str)) (pkgs : List Package)
    (varname : Str) : Str :=
  pkgs.foldl (fun str pkg =>
    match package_get_var globals pkg varname with
    | some var => str ++ var ++ [' ']
    | none => str) []

/-- The index used by the chop `str->str[str->len - 1] = '\0'` at pkg.c
line 892, as an integer (the C expression underflows when `len = 0`). -/
def packages_get_var_chop_index (globals : List (Str × Str)) (pkgs : List Package)
    (varname : Str) : Int :=
  (packages_get_var_buffer globals pkgs varname).length - 1

/-! ### Concrete packages used as inputs for the resolver-level claims -/

/-- A package `b`, version 1.0, with no dependencies. -/
def pkgB : Package := .mk {
  key := "b".data, name := some "b".data, version := some "1.0".data,
  description := some "db".data, pcfiledir := "/usr/lib/pkgconfig".data,
  vars := [], l_libs := [], L_libs := [], I_cflags := [],
  conflictList := [], required_versions := [], uninstalled := false } []

/-- A `Conflicts: c = 1.0` entry declared by package `a`: its name `c`
differs from the key of every required package. -/
def conflictC : RequiredVersion := ⟨"c".data, .EQUAL, some "1.0".data, "a".data⟩

/-- A package `a` that requires `b` (version 1.0) and declares the
conflict `c = 1.0`. -/
def pkgA : Package := .mk {
  key := "a".data, name := some "a".data, version := some "2.0".data,
  description := some "da".data, pcfiledir := "/usr/lib/pkgconfig".data,
  vars := [], l_libs := [], L_libs := [], I_cflags := [],
  conflictList := [conflictC], required_versions := [], uninstalled := false } [pkgB]

/-- A package whose only flag is `-IA`, used to exercise the merged
output. -/
def pkgOneCflag : Package := .mk {
  key := "foo".data, name := some "foo".data, version := some "1.0".data,
  description := some "d".data, pcfiledir := "/usr/lib/pkgconfig".data,
  vars := [], l_libs := [], L_libs := [], I_cflags := ["-IA".data],
  conflictList := [], required_versions := [], uninstalled := false } []

/-- C1: the conflict scan of `verify_package` never compares the conflict
constraint's name with the required package's key: package `a` requires
`b 1.0` and declares only `Conflicts: c = 1.0`, yet `verify_package` exits
fatally on the pair `(b, c = 1.0)` whose names differ.  The claim (and
spec §4.8) require a name match before the failure. -/
theorem C1_conflict_scan_ignores_names :
    find_conflict pkgA = some (pkgB, conflictC) ∧
    conflictC.name ≠ pkgB.key ∧
    verify_package pkgA =
      some (.conflict ("1.0".data) ("b".data) ("c".data) .EQUAL ("1.0".data)) := by
  have h1 : recursive_fill_list get_requires pkgA = [pkgB] := by
    simp [pkgA, pkgB, recursive_fill_list, recursive_fill_list_over, get_requires,
      Package.requiresList]
  have h2 : recursive_fill_list get_conflicts pkgA = [conflictC] := by
    simp [pkgA, pkgB, recursive_fill_list, recursive_fill_list_over, get_conflicts,
      Package.data]
  have hc : find_conflict pkgA = some (pkgB, conflictC) := by
    rw [find_conflict, h1, h2]
    simp [List.findSome?, List.find?, pkgB, conflictC, version_test, compare_versions,
      rpmvercmp, Package.version, Package.data]
  refine ⟨hc, by decide, ?_⟩
  rw [verify_package]
  rw [if_neg (by simp [pkgA, Package.name, Package.data]),
    if_neg (by simp [pkgA, Package.version, Package.data]),
    if_neg (by simp [pkgA, Package.description, Package.data])]
  have hrv : find_required_version_failure pkgA = none := by
    simp [find_required_version_failure, pkgA, pkgB, Package.requiresList, Package.key,
      Package.data, g_hash_table_lookup, List.findSome?, List.find?]
  rw [hrv, hc]
  simp [pkgB, conflictC, Package.version, Package.name, Package.data]

/-! ### Merged-output shape (C9) -/

/-- Specification-level "joined by exactly one space": a single space
between adjacent elements, nothing before the first or after the last. -/
def joinWithSpaces : List Str → Str
  | [] => []
  | [x] => x
  | x :: y :: rest => x ++ [' '] ++ joinWithSpaces (y :: rest)

theorem string_list_to_string_foldl (l : List Str) (acc : Str) :
    l.foldl (fun str d => str ++ d ++ [' ']) acc =
      acc ++ (l.map (fun d => d ++ [' '])).flatten := by
  induction l generalizing acc with
  | nil => simp
  | cons x xs ih =>
    rw [List.foldl_cons, ih]
    simp [List.append_assoc]

theorem join_map_space (l : List Str) :
    (l.map (fun d => d ++ [' '])).flatten =
      joinWithSpaces l ++ (if l = [] then [] else [' ']) := by
  induction l with
  | nil => simp [joinWithSpaces]
  | cons x xs ih =>
    cases xs with
    | nil => simp [joinWithSpaces]
    | cons y ys =>
      rw [List.map_cons, List.flatten_cons, ih, joinWithSpaces]
      simp [List.append_assoc]

/-- Every `string_list_to_string` output is the elements joined by single
spaces followed by one trailing space when the list is nonempty. -/
theorem string_list_to_string_spec (l : List Str) :
    string_list_to_string l = joinWithSpaces l ++ (if l = [] then [] else [' ']) := by
  rw [string_list_to_string, string_list_to_string_foldl, List.nil_append, join_map_space]

/-- C9 counterexample: the merged output for a package with single flag
`-IA` is `"-IA "` - the flags joined by one space but followed by a
trailing space, contradicting the claimed "no trailing space at the end".
-/
theorem C9_counterexample :
    get_merged pkgOneCflag get_I_cflags = ("-IA ".data) ∧
    get_merged pkgOneCflag get_I_cflags ≠
      joinWithSpaces
        (string_list_strip_duplicates (recursive_fill_list get_I_cflags pkgOneCflag)) := by
  have hfill : recursive_fill_list get_I_cflags pkgOneCflag = ["-IA".data] := by
    simp [pkgOneCflag, recursive_fill_list, recursive_fill_list_over, get_I_cflags,
      Package.data]
  constructor
  · rw [get_merged, hfill]
    decide
  · rw [get_merged, hfill]
    decide

/-- C9 (amended): every merged output (`get_merged`, `get_multi_merged`
and the from-back variants) is the surviving flags' args joined by exactly
one space, with one additional trailing space whenever any flag survives
(and the empty string otherwise). -/
theorem C9_merged_output_shape :
    (∀ pkg func, get_merged pkg func =
      joinWithSpaces (string_list_strip_duplicates (recursive_fill_list func pkg)) ++
        (if string_list_strip_duplicates (recursive_fill_list func pkg) = [] then []
          else [' '])) ∧
    (∀ pkg func, get_merged_from_back pkg func =
      joinWithSpaces
          (string_list_strip_duplicates_from_back (recursive_fill_list func pkg)) ++
        (if string_list_strip_duplicates_from_back (recursive_fill_list func pkg) = []
          then [] else [' '])) ∧
    (∀ pkgs func, get_multi_merged pkgs func =
      joinWithSpaces
          (string_list_strip_duplicates (recursive_fill_list_over func pkgs)) ++
        (if string_list_strip_duplicates (recursive_fill_list_over func pkgs) = []
          then [] else [' '])) ∧
    (∀ pkgs func, get_multi_merged_from_back pkgs func =
      joinWithSpaces
          (string_list_strip_duplicates_from_back (recursive_fill_list_over func pkgs)) ++
        (if string_list_strip_duplicates_from_back (recursive_fill_list_over func pkgs) = []
          then [] else [' '])) :=
  ⟨fun _ _ => string_list_to_string_spec _,
   fun _ _ => string_list_to_string_spec _,
   fun _ _ => string_list_to_string_spec _,
   fun _ _ => string_list_to_string_spec _⟩

/-- C10: `packages_get_var` chops the trailing space by writing at index
`str->len - 1` unconditionally; on the empty package list (or when no
package defines the variable) nothing was appended, `len = 0`, and the
index is -1: an out-of-bounds write, contradicting the claimed
in-bounds property. -/
theorem C10_chop_index_underflows :
    packages_get_var_buffer [] [] ("x".data) = [] ∧
    packages_get_var_chop_index [] [] ("x".data) = -1 ∧
    ¬ (0 ≤ packages_get_var_chop_index [] [] ("x".data)) ∧
    packages_get_var_buffer [] [pkgB] ("x".data) = [] ∧
    packages_get_var_chop_index [] [pkgB] ("x".data) = -1 := by
  have hb : packages_get_var_buffer [] [pkgB] ("x".data) = [] := by
    simp [packages_get_var_buffer, package_get_var, pkgB, g_hash_table_lookup,
      Package.vars, Package.data]
  refine ⟨rfl, by decide, by decide, hb, ?_⟩
  rw [packages_get_var_chop_index, hb]
  decide

/-! ### Directory scanning (pkg.c lines 33-147)

The filesystem is a function from a directory name to its `readdir`
entries; a directory that cannot be opened is modelled by the empty entry
list, matching `scan_dir`'s early return. -/

/-- `add_search_dir` (pkg.c line 33): `g_slist_prepend`. -/
def add_search_dir (search_dirs : List Str) (path : Str) : List Str :=
  path :: search_dirs

/-- `ends_in_dotpc` (pkg.c line 41): length above 3 and the last three
characters are `.`, `p`, `c`. -/
def ends_in_dotpc (str : Str) : Bool :=
  str.length > 3 && str.drop (str.length - 3) = ['.', 'p', 'c']

/-- `name_ends_in_uninstalled` (pkg.c line 58). -/
def name_ends_in_uninstalled (str : Str) : Bool :=
  str.length > 11 && str.drop (str.length - 11) = "uninstalled".data

/-- The `dirnamelen` trimming in `scan_dir`: one trailing slash is
dropped before building file names. -/
def scan_dirname (dirname : Str) : Str :=
  if dirname ≠ [] ∧ dirname.getLast? = some '/' then dirname.dropLast else dirname

/-- The `readdir` loop of `scan_dir` (pkg.c lines 93-129): each entry
ending in `.pc` yields the key obtained by stripping the extension; the
full path is recorded only when the key is not yet known. -/
def scan_dir_loop (dirname : Str) : List Str → List (Str × Str) → List (Str × Str)
  | [], locations => locations
  | fname :: rest, locations =>
    scan_dir_loop dirname rest
      (if ends_in_dotpc fname then
        match g_hash_table_lookup locations (fname.take (fname.length - 3)) with
        | some _ => locations
        | none =>
          g_hash_table_insert locations (fname.take (fname.length - 3))
            (scan_dirname dirname ++ ['/'] ++ fname)
      else locations)

/-- `scan_dir` (pkg.c line 74). -/
def scan_dir (fs : Str → List Str) (dirname : Str) (locations : List (Str × Str)) :
    List (Str × Str) :=
  scan_dir_loop dirname (fs dirname) locations

/-- `package_init` (pkg.c line 132): scan the search directories in list
order, then the compiled-in `PKGLIBDIR`. -/
def package_init (fs : Str → List Str) (search_dirs : List Str) (pkglibdir : Str) :
    List (Str × Str) :=
  scan_dir fs pkglibdir (search_dirs.foldl (fun locs d => scan_dir fs d locs) [])

theorem lookup_cons {α : Type} (k' : Str) (v' : α) (t : List (Str × α)) (k : Str) :
    g_hash_table_lookup ((k', v') :: t) k =
      if k' = k then some v' else g_hash_table_lookup t k := by
  by_cases h : k' = k <;> simp [g_hash_table_lookup, List.find?_cons, h]

/-- A `.pc` entry determines its key: if stripping the extension gives
`k`, the entry is `k ++ ".pc"`. -/
theorem dotpc_entry_eq {f k : Str} (hpc : ends_in_dotpc f = true)
    (hk : f.take (f.length - 3) = k) : f = k ++ ".pc".data := by
  have hsplit := List.take_append_drop (f.length - 3) f
  simp only [ends_in_dotpc, Bool.and_eq_true, decide_eq_true_eq] at hpc
  rw [hk, hpc.2] at hsplit
  exact hsplit.symm

theorem ends_in_dotpc_append (k : Str) (hk : k ≠ []) :
    ends_in_dotpc (k ++ ".pc".data) = true := by
  have hlen : (k ++ ".pc".data).length = k.length + 3 := by simp
  have hpos : 0 < k.length := List.length_pos.mpr hk
  simp only [ends_in_dotpc, Bool.and_eq_true, decide_eq_true_eq]
  constructor
  · simp only [hlen]; omega
  · rw [hlen, Nat.add_sub_cancel]
    simpa using List.drop_left k (".pc".data)

theorem take_dotpc_append (k : Str) : (k ++ ".pc".data).take ((k ++ ".pc".data).length - 3) = k := by
  have hlen : (k ++ ".pc".data).length = k.length + 3 := by simp
  rw [hlen, Nat.add_sub_cancel]
  simpa using List.take_left k (".pc".data)

/-- An already-recorded key survives any further scanning (first wins). -/
theorem scan_dir_loop_preserves {k : Str} {v : Str} (dirname : Str) :
    ∀ (entries : List Str) (locs : List (Str × Str)),
      g_hash_table_lookup locs k = some v →
      g_hash_table_lookup (scan_dir_loop dirname entries locs) k = some v := by
  intro entries
  induction entries with
  | nil => intro locs h; simpa [scan_dir_loop] using h
  | cons fname rest ih =>
    intro locs h
    rw [scan_dir_loop]
    by_cases hpc : ends_in_dotpc fname = true
    · rw [if_pos hpc]
      rcases hl : g_hash_table_lookup locs (fname.take (fname.length - 3)) with _ | w
      · have hkey : fname.take (fname.length - 3) ≠ k := by
          intro heq
          rw [heq, h] at hl
          exact Option.noConfusion hl
        apply ih
        rw [g_hash_table_insert, lookup_cons, if_neg hkey]
        exact h
      · exact ih locs h
    · rw [if_neg hpc]
      exact ih locs h

/-- A key with no matching entry and not yet recorded stays unrecorded. -/
theorem scan_dir_loop_miss {k : Str} (hk : k ≠ []) (dirname : Str) :
    ∀ (entries : List Str) (locs : List (Str × Str)),
      g_hash_table_lookup locs k = none →
      (k ++ ".pc".data) ∉ entries →
      g_hash_table_lookup (scan_dir_loop dirname entries locs) k = none := by
  intro entries
  induction entries with
  | nil => intro locs h _; simpa [scan_dir_loop] using h
  | cons fname rest ih =>
    intro locs h hmem
    have hne : fname ≠ k ++ ".pc".data := fun heq => hmem (heq ▸ List.mem_cons_self _ _)
    have hrest : (k ++ ".pc".data) ∉ rest := fun hr => hmem (List.mem_cons_of_mem _ hr)
    rw [scan_dir_loop]
    by_cases hpc : ends_in_dotpc fname = true
    · rw [if_pos hpc]
      rcases hl : g_hash_table_lookup locs (fname.take (fname.length - 3)) with _ | w
      · have hkey : fname.take (fname.length - 3) ≠ k := by
          intro heq
          exact hne (dotpc_entry_eq hpc heq)
        apply ih _ _ hrest
        rw [g_hash_table_insert, lookup_cons, if_neg hkey]
        exact h
      · exact ih locs h hrest
    · rw [if_neg hpc]
      exact ih locs h hrest

/-- Scanning a directory containing `k.pc` records the key the first time
it is seen. -/
theorem scan_dir_loop_hit {k : Str} (hk : k ≠ []) (dirname : Str) :
    ∀ (entries : List Str) (locs : List (Str × Str)),
      g_hash_table_lookup locs k = none →
      (k ++ ".pc".data) ∈ entries →
      g_hash_table_lookup (scan_dir_loop dirname entries locs) k =
        some (scan_dirname dirname ++ ['/'] ++ (k ++ ".pc".data)) := by
  intro entries
  induction entries with
  | nil => intro locs _ hmem; exact absurd hmem (List.not_mem_nil _)
  | cons fname rest ih =>
    intro locs h hmem
    rw [scan_dir_loop]
    by_cases hf : fname = k ++ ".pc".data
    · subst hf
      rw [if_pos (ends_in_dotpc_append k hk), take_dotpc_append]
      rw [h]
      apply scan_dir_loop_preserves
      rw [g_hash_table_insert, lookup_cons, if_pos rfl]
    · have hrest : (k ++ ".pc".data) ∈ rest := by
        rcases List.mem_cons.mp hmem with heq | hr
        · exact absurd heq.symm hf
        · exact hr
      by_cases hpc : ends_in_dotpc fname = true
      · rw [if_pos hpc]
        rcases hl : g_hash_table_lookup locs (fname.take (fname.length - 3)) with _ | w
        · have hkey : fname.take (fname.length - 3) ≠ k := by
            intro heq
            exact hf (dotpc_entry_eq hpc heq)
          apply ih _ _ hrest
          rw [g_hash_table_insert, lookup_cons, if_neg hkey]
          exact h
        · exact ih locs h hrest
      · rw [if_neg hpc]
        exact ih locs h hrest

/-- A recorded key survives folding `scan_dir` over any directory list. -/
theorem foldl_scan_preserves {k v : Str} (fs : Str → List Str) :
    ∀ (dirs : List Str) (locs : List (Str × Str)),
      g_hash_table_lookup locs k = some v →
      g_hash_table_lookup (dirs.foldl (fun locs d' => scan_dir fs d' locs) locs) k = some v := by
  intro dirs
  induction dirs with
  | nil => intro locs h; simpa using h
  | cons q qs ih =>
    intro locs h
    rw [List.foldl_cons]
    exact ih _ (scan_dir_loop_preserves q (fs q) locs h)

/-- A key stays unrecorded while no scanned directory holds `k.pc`. -/
theorem foldl_scan_miss {k : Str} (hk : k ≠ []) (fs : Str → List Str) :
    ∀ (dirs : List Str) (locs : List (Str × Str)),
      g_hash_table_lookup locs k = none →
      (∀ d' ∈ dirs, (k ++ ".pc".data) ∉ fs d') →
      g_hash_table_lookup (dirs.foldl (fun locs d' => scan_dir fs d' locs) locs) k = none := by
  intro dirs
  induction dirs with
  | nil => intro locs h _; simpa using h
  | cons q qs ih =>
    intro locs h hmiss
    rw [List.foldl_cons]
    exact ih _ (scan_dir_loop_miss hk q (fs q) locs h (hmiss q (List.mem_cons_self _ _)))
      (fun d' hd' => hmiss d' (List.mem_cons_of_mem _ hd'))

/-- C3: first directory in search-path order wins.  If directory `d`
contains `k.pc` and no earlier directory of the search path does, the
`locations` entry for `k` (and hence the file the package for `k` is
loaded from) is `d/k.pc`; later directories, including the compiled-in
`PKGLIBDIR`, cannot displace it. -/
theorem C3_first_wins (fs : Str → List Str) (pre post : List Str) (d pkglibdir k : Str)
    (hk : k ≠ [])
    (hhit : (k ++ ".pc".data) ∈ fs d)
    (hmiss : ∀ d' ∈ pre, (k ++ ".pc".data) ∉ fs d') :
    g_hash_table_lookup (package_init fs (pre ++ d :: post) pkglibdir) k =
      some (scan_dirname d ++ ['/'] ++ (k ++ ".pc".data)) := by
  rw [package_init, List.foldl_append, List.foldl_cons]
  have hnone : g_hash_table_lookup
      (pre.foldl (fun locs d' => scan_dir fs d' locs) []) k = none :=
    foldl_scan_miss hk fs pre [] (by simp [g_hash_table_lookup]) hmiss
  have hd : g_hash_table_lookup
      (scan_dir fs d (pre.foldl (fun locs d' => scan_dir fs d' locs) [])) k =
      some (scan_dirname d ++ ['/'] ++ (k ++ ".pc".data)) :=
    scan_dir_loop_hit hk d (fs d) _ hnone hhit
  have hpost := foldl_scan_preserves fs post _ hd
  exact scan_dir_loop_preserves pkglibdir (fs pkglibdir) _ hpost

/-- A two-directory search path where both directories contain `k.pc`:
the earlier directory's file is recorded. -/
def fsTwoDirs : Str → List Str := fun d =>
  if d = "d1".data then ["k.pc".data]
  else if d = "d2".data then ["k.pc".data]
  else []

/-- Witness for C3 at a concrete search path: both `d1` and `d2` contain
`k.pc`, and the entry recorded for `k` is `d1/k.pc`. -/
theorem C3_first_wins_witness :
    ("k".data ≠ ([] : Str)) ∧
    ("k".data ++ ".pc".data) ∈ fsTwoDirs ("d1".data) ∧
    g_hash_table_lookup (package_init fsTwoDirs ["d1".data, "d2".data] ("plib".data))
      ("k".data) = some ("d1/k.pc".data) := by
  refine ⟨by decide, by decide, ?_⟩
  have h := C3_first_wins fsTwoDirs [] ["d2".data] ("d1".data) ("plib".data) ("k".data)
    (by decide) (by decide) (by intro d' hd'; simp at hd')
  simpa using h

/-! ### Line reader (`read_one_line`, parse.c lines 56-139)

The stream is the list of remaining characters; `getc` takes the head,
`EOF` is the empty list, and `ungetc` simply leaves the character on the
stream.  The loop state is `quoted` (the previous character was an
unconsumed backslash) and `comment` (inside a `#` comment); the result is
the output buffer, the rest of the stream, and `n_read > 0`. -/

def read_one_line_loop (quoted comment : Bool) (acc : Str) (readAny : Bool) :
    Str → Str × Str × Bool
  | [] =>
    -- EOF: a pending backslash is flushed into the buffer
    (if quoted then acc ++ ['\\'] else acc, [], readAny)
  | c :: rest =>
    if quoted then
      -- quoted = FALSE; then switch (c)
      if c = '#' then read_one_line_loop false comment (acc ++ ['#']) true rest
      else if c = '\r' ∨ c = '\n' then
        -- escaped terminator: line continuation; two-byte forms are one lookahead
        match rest with
        | [] => read_one_line_loop false comment acc true []
        | d :: rest2 =>
          if (c = '\r' ∧ d = '\n') ∨ (c = '\n' ∧ d = '\r') then
            read_one_line_loop false comment acc true rest2
          else read_one_line_loop false comment acc true (d :: rest2)
      else read_one_line_loop false comment (acc ++ ['\\', c]) true rest
    else
      if c = '#' then read_one_line_loop false true acc true rest
      else if c = '\\' then read_one_line_loop (!comment) comment acc true rest
      else if c = '\n' then
        -- logical line ends; `c == '\r'` in the lookahead condition is dead
        -- here, so only the `\n\r` two-byte form is consumed atomically
        match rest with
        | [] => (acc, [], true)
        | d :: rest2 => if d = '\r' then (acc, rest2, true) else (acc, d :: rest2, true)
      else read_one_line_loop false comment (if comment then acc else acc ++ [c]) true rest

/-- `read_one_line` (parse.c line 56). -/
def read_one_line (stream : Str) : Str × Str × Bool :=
  read_one_line_loop false false [] false stream

/-- C8: the unquoted `switch` in `read_one_line` has a `case '\n':` but no
`case '\r':` - contrary to the function's own documentation comment and
the claim, a lone `\r` outside an escape does NOT end the logical line and
IS written into the buffer; consequently even `\r\n` leaves the `\r` in
the buffer.  Only `\n` and the atomic `\n\r` behave as documented. -/
theorem C8_lone_cr_is_not_a_terminator :
    read_one_line ("a\rb\nc".data) = ("a\rb".data, "c".data, true) ∧
    read_one_line ("a\r\nc".data) = ("a\r".data, "c".data, true) ∧
    read_one_line ("a\n\rc".data) = ("a".data, "c".data, true) ∧
    read_one_line ("a\nc".data) = ("a".data, "c".data, true) := by
  refine ⟨rfl, rfl, rfl, rfl⟩

/-! ### Registry and key resolution (`internal_get_package`, pkg.c lines 149-274)

The process state visible to the resolver is bundled in `ResolveEnv`: the
interning cache, the `locations` map, the set of paths `fopen` can open,
the (abstract) parse outcome of each openable file, the
`disable_uninstalled` flag and the legacy `get_compat_package` fallback.
The model returns the resolved package and the user-visible diagnostics;
the cache insertion is a state update not needed by the claims. -/

/-- `file_readable` (pkg.c line 149).  Note: this function is dead code in
this source - `internal_get_package` never calls it. -/
def file_readable (files : List Str) (path : Str) : Bool := path ∈ files

inductive ResolveDiag where
  | notFound (name : Str)
  | failedToOpen (path : Str)
  | verifyFatal (e : VerifyErr)
deriving DecidableEq, Repr

structure ResolveEnv where
  packages : List (Str × Package)
  locations : List (Str × Str)
  files : List Str
  parseResult : Str → Option Package
  disable_uninstalled : Bool
  compat : Str → Option Package

/-- `parse_package_file` as called from pkg.c line 232, at the granularity
the resolver claims need: opening a missing file emits the
"Failed to open" diagnostic and yields no package; otherwise the abstract
parse outcome of the file is returned. -/
def parse_package_file (env : ResolveEnv) (path : Str) : Option Package × List ResolveDiag :=
  if path ∈ env.files then (env.parseResult path, [])
  else (none, [.failedToOpen path])

def Package.withKey : Package → Str → Package
  | .mk d r, k => .mk { d with key := k } r

def Package.withUninstalled : Package → Bool → Package
  | .mk d r, b => .mk { d with uninstalled := b } r

/-- Key derivation for a direct-filename request (pkg.c lines 246-258):
scan back from just before `.pc` to the previous directory separator; the
separator, when found, is included in the key (a quirk of the backward
scan stopping on the separator itself). -/
def key_from_filename (name : Str) : Str :=
  let pre := name.take (name.length - 3)
  let tail := pre.reverse.takeWhile (fun c => c ≠ '/')
  if tail.length = pre.length then pre else (tail ++ ['/']).reverse

/-- The tail of `internal_get_package` once a location is known (pkg.c
lines 231-267): parse, mark `uninstalled` when the path contains
`uninstalled.pc`, set the key (stripping it from the filename when the
request was a direct path), verify, intern, return. -/
def load_package_from (env : ResolveEnv) (name location : Str) (direct : Bool) :
    Option Package × List ResolveDiag :=
  match parse_package_file env location with
  | (none, ds) => (none, ds)
  | (some pkg, ds) =>
    let pkg1 := if List.IsInfix ("uninstalled.pc".data) location then
        pkg.withUninstalled true else pkg
    let pkg2 := if direct then pkg1.withKey (key_from_filename name)
      else pkg1.withKey name
    match verify_package pkg2 with
    | some e => (none, ds ++ [.verifyFatal e])
    | none => (some pkg2, ds)

/-- `internal_get_package` (pkg.c line 164).  The only recursion is the
uninstalled-preference call, whose argument ends in `uninstalled` and so
never recurses again; fuel 2 therefore suffices (see `get_package`). -/
def internal_get_package (env : ResolveEnv) :
    Nat → Str → Bool → Bool → Option Package × List ResolveDiag
  | 0, _, _, _ => (none, [])
  | Nat.succ fuel, name, warn, check_compat =>
    match g_hash_table_lookup env.packages name with
    | some pkg => (some pkg, [])
    | none =>
      -- "treat name as a filename if it ends in .pc and exists":
      -- the code checks only ends_in_dotpc, never file_readable
      if ends_in_dotpc name then
        load_package_from env name name true
      else
        match (if ¬ env.disable_uninstalled ∧ ¬ name_ends_in_uninstalled name then
            (internal_get_package env fuel (name ++ "-uninstalled".data) false false).1
          else none) with
        | some pkg => (some pkg, [])
        | none =>
          match g_hash_table_lookup env.locations name with
          | some location => load_package_from env name location false
          | none =>
            match (if check_compat then env.compat name else none) with
            | some pkg => (some pkg, [])
            | none =>
              if warn then (none, [.notFound name]) else (none, [])

/-- `get_package` (pkg.c line 270). -/
def get_package (env : ResolveEnv) (name : Str) : Option Package × List ResolveDiag :=
  internal_get_package env 2 name true true

/-- An environment for C5: nothing cached, no file exists, but `locations`
maps the literal key `missing.pc` to an existing, parseable file
`found.pc` - the claimed fall-through would find and load it. -/
def env5 : ResolveEnv := {
  packages := [],
  locations := [("missing.pc".data, "found.pc".data)],
  files := ["found.pc".data],
  parseResult := fun p => if p = "found.pc".data then some pkgB else none,
  disable_uninstalled := false,
  compat := fun _ => none }

/-- C5: a name ending in `.pc` is treated as a direct file path without
any existence check (the `file_readable` guard the claim describes is dead
code): for the non-existent `missing.pc` the resolver neither falls
through to the uninstalled preference / `locations` lookup (which would
succeed here) nor emits the "not found" diagnostic - it fails opening
`missing.pc` and returns absent. -/
theorem C5_dotpc_skips_existence_check :
    get_package env5 ("missing.pc".data) = (none, [.failedToOpen ("missing.pc".data)]) ∧
    file_readable env5.files ("missing.pc".data) = false ∧
    g_hash_table_lookup env5.locations ("missing.pc".data) = some ("found.pc".data) ∧
    parse_package_file env5 ("found.pc".data) = (some pkgB, []) := by
  refine ⟨rfl, rfl, rfl, rfl⟩

/-! ### Descriptor parser (`parse.c`)

`verbose_error` followed by `exit(1)` under `parse_strict` is modelled by
`Except.error`; in lax mode diagnostics are collected in a list and
parsing continues.  External GLib services (`g_shell_parse_argv`,
`g_path_get_basename`, `g_path_get_dirname`) and the front-end
configuration (`parse_strict`, `define_prefix`, `prefix_variable`, the
global variable table) are parameters in `ParseCtx`. -/

inductive FlagType where
  | CFLAGS_I
  | CFLAGS_OTHER
  | LIBS_l
  | LIBS_L
  | LIBS_OTHER
deriving DecidableEq, Repr

/-- `Flag` from `pkg.h`. -/
structure Flag where
  type : FlagType
  arg : Str
deriving DecidableEq, Repr

/-- The fields of a `Package` that `parse.c` fills in.  `origPfx` is the
source's `orig_prefix` field. -/
structure ParsePkg where
  key : Str
  name : Option Str
  version : Option Str
  description : Option Str
  url : Option Str
  pcfiledir : Str
  vars : List (Str × Str)
  origPfx : Option Str
  requires_entries : List RequiredVersion
  requires_private_entries : List RequiredVersion
  conflicts : List RequiredVersion
  cflags : List Flag
  libs : List Flag
  libs_private : List Flag
deriving DecidableEq, Repr

/-- The diagnostics `parse.c` can emit through `verbose_error`. -/
inductive Diag where
  | undefinedVariable (varname path : Str)
  | dupField (field path : Str)
  | unknownOperator (op name path : Str)
  | missingVersionAfterOperator (name path : Str)
  | badArgv (field : Str)
  | dupVariable (varname path : Str)
deriving DecidableEq, Repr

structure ParseCtx where
  parse_strict : Bool
  definePfx : Bool
  pfxVariable : Str
  globals : List (Str × Str)
  g_shell_parse_argv : Str → Option (List Str)
  g_path_get_basename : Str → Str
  g_path_get_dirname : Str → Str

/-- `trim_string` (parse.c line 141). -/
def trim_string (str : Str) : Str :=
  (((str.dropWhile cIsspace).reverse).dropWhile cIsspace).reverse

/-- `package_get_var` as called during parsing (the parse-phase package). -/
def parse_package_get_var (globals : List (Str × Str)) (pkg : ParsePkg) (var : Str) :
    Option Str :=
  match g_hash_table_lookup globals var with
  | some v => some v
  | none =>
    match g_hash_table_lookup pkg.vars var with
    | some v => some v
    | none => if var = "pcfiledir".data then some pkg.pcfiledir else none

def lbrace : Char := Char.ofNat 123

def rbrace : Char := Char.ofNat 125

/-- The substitution loop of `trim_and_sub` (parse.c lines 169-218),
fuel-indexed (each iteration consumes at least one character, so the
initial fuel of `trim_and_sub` is never exhausted).  An undefined variable
emits a diagnostic, aborts under strict mode, and expands to nothing in
lax mode (`g_string_append` with NULL appends nothing).  An unterminated
`${` reference consumes the rest of the string. -/
def substLoop (ctx : ParseCtx) (pkg : ParsePkg) (path : Str) :
    Nat → Str → Str → List Diag → Except Diag (Str × List Diag)
  | 0, _, acc, ds => .ok (acc, ds)
  | Nat.succ fuel, s, acc, ds =>
    match s with
    | [] => .ok (acc, ds)
    | c :: rest =>
      if c = '$' then
        match rest with
        | d :: rest2 =>
          if d = '$' then substLoop ctx pkg path fuel rest2 (acc ++ ['$']) ds
          else if d = lbrace then
            let varname := rest2.takeWhile (fun x => x ≠ rbrace)
            let after := (rest2.dropWhile (fun x => x ≠ rbrace)).drop 1
            match parse_package_get_var ctx.globals pkg varname with
            | some varval => substLoop ctx pkg path fuel after (acc ++ varval) ds
            | none =>
              if ctx.parse_strict then .error (.undefinedVariable varname path)
              else substLoop ctx pkg path fuel after acc
                (ds ++ [.undefinedVariable varname path])
          else substLoop ctx pkg path fuel rest (acc ++ [c]) ds
        | [] => substLoop ctx pkg path fuel [] (acc ++ [c]) ds
      else substLoop ctx pkg path fuel rest (acc ++ [c]) ds

/-- `trim_and_sub` (parse.c line 158). -/
def trim_and_sub (ctx : ParseCtx) (pkg : ParsePkg) (str path : Str) :
    Except Diag (Str × List Diag) :=
  substLoop ctx pkg path ((trim_string str).length + 1) (trim_string str) [] []

/-- `MODULE_SEPARATOR` (parse.c line 273). -/
def MODULE_SEPARATOR (c : Char) : Bool := c = ',' || cIsspace c

/-- `OPERATOR_CHAR` (parse.c line 274). -/
def OPERATOR_CHAR (c : Char) : Bool := c = '<' || c = '>' || c = '!' || c = '='

/-- `ModuleSplitState` (parse.c line 282). -/
inductive ModuleSplitState where
  | OUTSIDE_MODULE
  | IN_MODULE_NAME
  | BEFORE_OPERATOR
  | IN_OPERATOR
  | AFTER_OPERATOR
  | IN_MODULE_VERSION
deriving DecidableEq, Repr

/-- One state transition of `split_module_list` (parse.c lines 315-371);
`rest` is the stream after the current character `c`, used for the
whitespace-crossing operator lookahead.  The unreachable
`g_assert_not_reached` in `BEFORE_OPERATOR` keeps the state. -/
def split_step (state : ModuleSplitState) (c : Char) (rest : Str) : ModuleSplitState :=
  match state with
  | .OUTSIDE_MODULE =>
    if !MODULE_SEPARATOR c then .IN_MODULE_NAME else .OUTSIDE_MODULE
  | .IN_MODULE_NAME =>
    if cIsspace c then
      match ((c :: rest).dropWhile cIsspace).head? with
      | some s => if OPERATOR_CHAR s then .BEFORE_OPERATOR else .OUTSIDE_MODULE
      | none => .OUTSIDE_MODULE
    else if MODULE_SEPARATOR c then .OUTSIDE_MODULE
    else .IN_MODULE_NAME
  | .BEFORE_OPERATOR =>
    if cIsspace c then .BEFORE_OPERATOR
    else if OPERATOR_CHAR c then .IN_OPERATOR
    else .BEFORE_OPERATOR
  | .IN_OPERATOR =>
    if !OPERATOR_CHAR c then .AFTER_OPERATOR else .IN_OPERATOR
  | .AFTER_OPERATOR =>
    if !cIsspace c then .IN_MODULE_VERSION else .AFTER_OPERATOR
  | .IN_MODULE_VERSION =>
    if MODULE_SEPARATOR c then .OUTSIDE_MODULE else .IN_MODULE_VERSION

/-- The character loop of `split_module_list` (parse.c lines 309-402):
`cur` holds the characters of the module being collected (the slice from
`start` to `p`), `acc` the prepend-accumulated finished modules. -/
def split_loop (state : ModuleSplitState) (cur : Str) (acc : List Str) :
    Str → List Str
  | [] => if state ≠ .OUTSIDE_MODULE then cur :: acc else acc
  | c :: rest =>
    let newState := split_step state c rest
    if newState = .OUTSIDE_MODULE then
      if state ≠ .OUTSIDE_MODULE then split_loop newState [] (cur :: acc) rest
      else split_loop newState cur acc rest
    else
      if state = .OUTSIDE_MODULE then split_loop newState [c] acc rest
      else split_loop newState (cur ++ [c]) acc rest

/-- `split_module_list` (parse.c line 295); the final `g_list_reverse`
restores input order. -/
def split_module_list (str _path : Str) : List Str :=
  (split_loop .OUTSIDE_MODULE [] [] str).reverse

/-- The operator-recognition chain of `do_parse_module_list` (parse.c
lines 459-470). -/
def parse_operator (start : Str) : Option ComparisonType :=
  if start = "=".data then some .EQUAL
  else if start = ">=".data then some .GREATER_THAN_EQUAL
  else if start = "<=".data then some .LESS_THAN_EQUAL
  else if start = ">".data then some .GREATER_THAN
  else if start = "<".data then some .LESS_THAN
  else if start = "!=".data then some .NOT_EQUAL
  else none

/-- The per-module loop of `do_parse_module_list` (parse.c lines 418-513).
Each module yields a `RequiredVersion` that is prepended to `listp`
*before* the operator is validated; on an unknown operator the C code
`continue`s in lax mode, leaving that entry in the list with comparison
`ALWAYS_MATCH` and no version. -/
def do_parse_module_loop (ctx : ParseCtx) (ownerKey path : Str) :
    List Str → List RequiredVersion → List Diag →
      Except Diag (List RequiredVersion × List Diag)
  | [], listp, ds => .ok (listp, ds)
  | m :: rest, listp, ds =>
    let name := m.takeWhile (fun c => !cIsspace c)
    let p1 := (m.dropWhile (fun c => !cIsspace c)).dropWhile cIsspace
    let opTok := p1.takeWhile (fun c => !cIsspace c)
    let p2 := (p1.dropWhile (fun c => !cIsspace c)).dropWhile cIsspace
    let verTok := p2.takeWhile (fun c => !MODULE_SEPARATOR c)
    if opTok = [] then
      do_parse_module_loop ctx ownerKey path rest
        (⟨name, .ALWAYS_MATCH, none, ownerKey⟩ :: listp) ds
    else
      match parse_operator opTok with
      | none =>
        if ctx.parse_strict then .error (.unknownOperator opTok name path)
        else
          do_parse_module_loop ctx ownerKey path rest
            (⟨name, .ALWAYS_MATCH, none, ownerKey⟩ :: listp)
            (ds ++ [.unknownOperator opTok name path])
      | some comparison =>
        if verTok = [] then
          if ctx.parse_strict then .error (.missingVersionAfterOperator name path)
          else
            do_parse_module_loop ctx ownerKey path rest
              (⟨name, comparison, some ("0".data), ownerKey⟩ :: listp)
              (ds ++ [.missingVersionAfterOperator name path])
        else
          do_parse_module_loop ctx ownerKey path rest
            (⟨name, comparison, some verTok, ownerKey⟩ :: listp) ds

/-- `do_parse_module_list` (parse.c line 409). -/
def do_parse_module_list (ctx : ParseCtx) (ownerKey : Str) (listp : List RequiredVersion)
    (str path : Str) : Except Diag (List RequiredVersion × List Diag) :=
  do_parse_module_loop ctx ownerKey path (split_module_list str path) listp []

/-- `parse_module_list` (parse.c line 520): fresh list, reversed at the
end. -/
def parse_module_list (ctx : ParseCtx) (ownerKey : Str) (str path : Str) :
    Except Diag (List RequiredVersion × List Diag) :=
  match do_parse_module_list ctx ownerKey [] str path with
  | .error d => .error d
  | .ok (list, ds) => .ok (list.reverse, ds)

/-- `parse_deps` (parse.c line 528). -/
def parse_deps (ctx : ParseCtx) (pkg : ParsePkg) (listp : List RequiredVersion)
    (str path : Str) : Except Diag (List RequiredVersion × List Diag) :=
  match trim_and_sub ctx pkg str path with
  | .error d => .error d
  | .ok (trimmed, ds1) =>
    match do_parse_module_list ctx pkg.key listp trimmed path with
    | .error d => .error d
    | .ok (list, ds2) => .ok (list, ds1 ++ ds2)

/-- The escape set of `strdup_escape_shell` (parse.c lines 541-549),
written over byte values; `'$'=36 '('=40 ')'=41 '+'=43 ':'=58 '='=61
'@'=64 'Z'=90 '^'=94 '`'=96 'z'=122 '~'=126`. -/
def shell_escape_char (c : Char) : Bool :=
  let n := c.toNat
  (n < 36) || (36 < n && n < 40) || (41 < n && n < 43) || (58 < n && n < 61) ||
  (61 < n && n < 64) || (90 < n && n < 94) || (n = 96) || (122 < n && n < 126) ||
  (126 < n)

/-- `strdup_escape_shell` (parse.c line 536). -/
def strdup_escape_shell (s : Str) : Str :=
  (s.map (fun c => if shell_escape_char c then ['\\', c] else [c])).flatten

/-- The argv loop of `do_parse_libs` (parse.c lines 579-646) on a
non-Windows build: `L_flag = "-L"`, `l_flag = "-l"`, empty `lib_suffix`.
New flags are prepended to `listp`. -/
def do_parse_libs : List Flag → List Str → List Flag
  | listp, [] => listp
  | listp, a :: rest =>
    let arg := strdup_escape_shell (trim_string a)
    if arg.take 2 = "-l".data ∧ arg.take 5 ≠ "-lib:".data then
      do_parse_libs (⟨.LIBS_l, "-l".data ++ (arg.drop 2).dropWhile cIsspace⟩ :: listp) rest
    else if arg.take 2 = "-L".data then
      do_parse_libs (⟨.LIBS_L, "-L".data ++ (arg.drop 2).dropWhile cIsspace⟩ :: listp) rest
    else
      match rest with
      | next :: rest2 =>
        if arg = "-framework".data ∨ arg = "-Wl,-framework".data then
          do_parse_libs
            (⟨.LIBS_OTHER, arg ++ [' '] ++ strdup_escape_shell (trim_string next)⟩ :: listp)
            rest2
        else if arg ≠ [] then
          do_parse_libs (⟨.LIBS_OTHER, arg⟩ :: listp) (next :: rest2)
        else do_parse_libs listp (next :: rest2)
      | [] =>
        if arg ≠ [] then ⟨.LIBS_OTHER, arg⟩ :: listp
        else listp

/-- `parse_libs` (parse.c line 650): substitute, shell-split, classify.
An empty substituted value leaves `argc = 0` and the loop is a no-op. -/
def parse_libs (ctx : ParseCtx) (pkg : ParsePkg) (listp : List Flag)
    (field : Str) (str path : Str) : Except Diag (List Flag × List Diag) :=
  match trim_and_sub ctx pkg str path with
  | .error d => .error d
  | .ok (trimmed, ds) =>
    if trimmed ≠ [] then
      match ctx.g_shell_parse_argv trimmed with
      | none =>
        if ctx.parse_strict then .error (.badArgv field)
        else .ok (listp, ds ++ [.badArgv field])
      | some argv => .ok (do_parse_libs listp argv, ds)
    else .ok (do_parse_libs listp [], ds)

/-- The argv loop of `parse_cflags` (parse.c lines 717-767). -/
def parse_cflags_loop : List Flag → List Str → List Flag
  | acc, [] => acc
  | acc, a :: rest =>
    let arg := strdup_escape_shell (trim_string a)
    if arg.take 2 = "-I".data then
      parse_cflags_loop (⟨.CFLAGS_I, "-I".data ++ (arg.drop 2).dropWhile cIsspace⟩ :: acc) rest
    else
      match rest with
      | next :: rest2 =>
        if arg = "-idirafter".data ∨ arg = "-isystem".data then
          parse_cflags_loop
            (⟨.CFLAGS_I, arg ++ [' '] ++ strdup_escape_shell (trim_string next)⟩ :: acc)
            rest2
        else if arg ≠ [] then
          parse_cflags_loop (⟨.CFLAGS_OTHER, arg⟩ :: acc) (next :: rest2)
        else parse_cflags_loop acc (next :: rest2)
      | [] =>
        if arg ≠ [] then ⟨.CFLAGS_OTHER, arg⟩ :: acc
        else acc

/-- `parse_cflags` (parse.c line 681): duplicate check first (note it
tests `pkg->cflags`, i.e. whether a previous `Cflags` line produced at
least one flag), then substitute, shell-split, classify. -/
def parse_cflags (ctx : ParseCtx) (pkg : ParsePkg) (str path : Str) :
    Except Diag (ParsePkg × List Diag) :=
  if pkg.cflags ≠ [] then
    if ctx.parse_strict then .error (.dupField ("Cflags".data) path)
    else .ok (pkg, [.dupField ("Cflags".data) path])
  else
    match trim_and_sub ctx pkg str path with
    | .error d => .error d
    | .ok (trimmed, ds) =>
      if trimmed ≠ [] then
        match ctx.g_shell_parse_argv trimmed with
        | none =>
          if ctx.parse_strict then .error (.badArgv ("Cflags".data))
          else .ok (pkg, ds ++ [.badArgv ("Cflags".data)])
        | some argv => .ok ({ pkg with cflags := parse_cflags_loop pkg.cflags argv }, ds)
      else .ok (pkg, ds)

/-- `parse_name` (parse.c line 227): a second `Name` is diagnosed (strict:
fatal; lax: ignored keeping the first value). -/
def parse_name (ctx : ParseCtx) (pkg : ParsePkg) (str path : Str) :
    Except Diag (ParsePkg × List Diag) :=
  if pkg.name ≠ none then
    if ctx.parse_strict then .error (.dupField ("Name".data) path)
    else .ok (pkg, [.dupField ("Name".data) path])
  else
    match trim_and_sub ctx pkg str path with
    | .error d => .error d
    | .ok (v, ds) => .ok ({ pkg with name := some v }, ds)

/-- `parse_version` (parse.c line 242). -/
def parse_version (ctx : ParseCtx) (pkg : ParsePkg) (str path : Str) :
    Except Diag (ParsePkg × List Diag) :=
  if pkg.version ≠ none then
    if ctx.parse_strict then .error (.dupField ("Version".data) path)
    else .ok (pkg, [.dupField ("Version".data) path])
  else
    match trim_and_sub ctx pkg str path with
    | .error d => .error d
    | .ok (v, ds) => .ok ({ pkg with version := some v }, ds)

/-- `parse_description` (parse.c line 257). -/
def parse_description (ctx : ParseCtx) (pkg : ParsePkg) (str path : Str) :
    Except Diag (ParsePkg × List Diag) :=
  if pkg.description ≠ none then
    if ctx.parse_strict then .error (.dupField ("Description".data) path)
    else .ok (pkg, [.dupField ("Description".data) path])
  else
    match trim_and_sub ctx pkg str path with
    | .error d => .error d
    | .ok (v, ds) => .ok ({ pkg with description := some v }, ds)

/-- `parse_url` (parse.c line 773). -/
def parse_url (ctx : ParseCtx) (pkg : ParsePkg) (str path : Str) :
    Except Diag (ParsePkg × List Diag) :=
  if pkg.url ≠ none then
    if ctx.parse_strict then .error (.dupField ("URL".data) path)
    else .ok (pkg, [.dupField ("URL".data) path])
  else
    match trim_and_sub ctx pkg str path with
    | .error d => .error d
    | .ok (v, ds) => .ok ({ pkg with url := some v }, ds)

/-- The identifier characters of `parse_line`'s first-word scan (parse.c
lines 808-812): letters, digits, `_`, `.`. -/
def IDENT_CHAR (c : Char) : Bool :=
  (65 ≤ c.toNat && c.toNat ≤ 90) || (97 ≤ c.toNat && c.toNat ≤ 122) ||
  (48 ≤ c.toNat && c.toNat ≤ 57) || c = '_' || c = '.'

/-- `g_ascii_strcasecmp x "pkgconfig" == 0`. -/
def asciiLower (c : Char) : Char :=
  if 65 ≤ c.toNat ∧ c.toNat ≤ 90 then Char.ofNat (c.toNat + 32) else c

/-- The shared tail of `parse_line`'s variable branch (parse.c lines
932-948): duplicate check, substitution, insertion. -/
def parse_line_var (ctx : ParseCtx) (pkg : ParsePkg) (tag value path : Str) :
    Except Diag (ParsePkg × List Diag) :=
  match g_hash_table_lookup pkg.vars tag with
  | some _ =>
    if ctx.parse_strict then .error (.dupVariable tag path)
    else .ok (pkg, [.dupVariable tag path])
  | none =>
    match trim_and_sub ctx pkg value path with
    | .error d => .error d
    | .ok (varval, ds) =>
      .ok ({ pkg with vars := g_hash_table_insert pkg.vars tag varval }, ds)

/-- `parse_line` (parse.c line 788). -/
def parse_line (ctx : ParseCtx) (pkg : ParsePkg) (untrimmed path : Str) :
    Except Diag (ParsePkg × List Diag) :=
  let str := trim_string untrimmed
  if str = [] then .ok (pkg, [])
  else
    let tag := str.takeWhile IDENT_CHAR
    let p := (str.dropWhile IDENT_CHAR).dropWhile cIsspace
    match p with
    | ':' :: pAfter =>
      let value := pAfter.dropWhile cIsspace
      if tag = "Name".data then parse_name ctx pkg value path
      else if tag = "Description".data then parse_description ctx pkg value path
      else if tag = "Version".data then parse_version ctx pkg value path
      else if tag = "Requires.private".data then
        match parse_deps ctx pkg pkg.requires_private_entries value path with
        | .error d => .error d
        | .ok (l, ds) => .ok ({ pkg with requires_private_entries := l }, ds)
      else if tag = "Requires".data then
        match parse_deps ctx pkg pkg.requires_entries value path with
        | .error d => .error d
        | .ok (l, ds) => .ok ({ pkg with requires_entries := l }, ds)
      else if tag = "Libs.private".data then
        match parse_libs ctx pkg pkg.libs_private ("Libs.private".data) value path with
        | .error d => .error d
        | .ok (l, ds) => .ok ({ pkg with libs_private := l }, ds)
      else if tag = "Libs".data then
        match parse_libs ctx pkg pkg.libs ("Libs".data) value path with
        | .error d => .error d
        | .ok (l, ds) => .ok ({ pkg with libs := l }, ds)
      else if tag = "Cflags".data ∨ tag = "CFlags".data then
        parse_cflags ctx pkg value path
      else if tag = "Conflicts".data then
        match parse_deps ctx pkg pkg.conflicts value path with
        | .error d => .error d
        | .ok (l, ds) => .ok ({ pkg with conflicts := l }, ds)
      else if tag = "URL".data then parse_url ctx pkg value path
      else .ok (pkg, [])
    | '=' :: pAfter =>
      let value := pAfter.dropWhile cIsspace
      if ctx.definePfx ∧ tag = ctx.pfxVariable then
        if (ctx.g_path_get_basename pkg.pcfiledir).map asciiLower = "pkgconfig".data then
          -- prefix relocation: remember the declared value, override with the
          -- escaped, slash-normalised grandparent of pcfiledir, goto cleanup
          let q := ctx.g_path_get_dirname (ctx.g_path_get_dirname pkg.pcfiledir)
          let pfxEsc := strdup_escape_shell
            (q.map (fun ch => if ch = '\\' then '/' else ch))
          .ok ({ pkg with origPfx := some value,
                          vars := g_hash_table_insert pkg.vars tag pfxEsc }, [])
        else parse_line_var ctx pkg tag value path
      else
        if ctx.definePfx && (pkg.origPfx.elim false (fun op => (!op.isEmpty) &&
            decide (value.take op.length = op) &&
            decide ((value.drop op.length).head? = some '/'))) then
          let op := pkg.origPfx.getD []
          let newValue := (g_hash_table_lookup pkg.vars ctx.pfxVariable).getD [] ++
            value.drop op.length
          parse_line_var ctx pkg tag newValue path
        else parse_line_var ctx pkg tag value path
    | _ => .ok (pkg, [])

/-! ### Parser claims (C6, C7) -/

/-- A strict-mode context with the default front-end configuration and a
shell tokenizer adequate for single-token values. -/
def ctxStrict : ParseCtx := {
  parse_strict := true,
  definePfx := false,
  pfxVariable := "prefix".data,
  globals := [],
  g_shell_parse_argv := fun s => some [s],
  g_path_get_basename := fun s => s,
  g_path_get_dirname := fun s => s }

/-- The same context in lax mode. -/
def ctxLax : ParseCtx := { ctxStrict with parse_strict := false }

/-- A descriptor state mid-parse: required fields set, one `Requires`
entry already recorded. -/
def pkg6 : ParsePkg := {
  key := "p".data, name := some "n".data, version := some "1".data,
  description := some "d".data, url := none,
  pcfiledir := "/dir".data, vars := [("pcfiledir".data, "/dir".data)],
  origPfx := none,
  requires_entries := [⟨"a".data, .ALWAYS_MATCH, none, "p".data⟩],
  requires_private_entries := [], conflicts := [],
  cflags := [], libs := [], libs_private := [] }

/-- C6 counterexample: a second `Requires:` line in one descriptor is NOT
diagnosed: even under `parse_strict` the parse succeeds with no
diagnostic, and the second occurrence is not ignored - its entry is
prepended next to the first one's. -/
theorem C6_counterexample :
    parse_line ctxStrict pkg6 ("Requires: b".data) ("f.pc".data) =
      .ok ({ pkg6 with requires_entries :=
        [⟨"b".data, .ALWAYS_MATCH, none, "p".data⟩,
         ⟨"a".data, .ALWAYS_MATCH, none, "p".data⟩] }, []) := by
  rfl

/-- C6 (amended): duplicated `Name`, `Description`, `Version`, `URL` (and
`Cflags`, when the first occurrence produced at least one flag) are
diagnosed - fatal under strict mode, ignored keeping the first value in
lax mode; duplicated `Requires`, `Requires.private`, `Conflicts`, `Libs`
and `Libs.private` are NOT diagnosed - each occurrence's entries are
accumulated. -/
theorem C6_duplicate_field_handling (pkg : ParsePkg)
    (hn : pkg.name ≠ none) (hd : pkg.description ≠ none) (hv : pkg.version ≠ none)
    (hu : pkg.url ≠ none) (hc : pkg.cflags ≠ []) :
    (parse_line ctxStrict pkg ("Name: x".data) ("f.pc".data) =
      .error (.dupField ("Name".data) ("f.pc".data)) ∧
     parse_line ctxLax pkg ("Name: x".data) ("f.pc".data) =
      .ok (pkg, [.dupField ("Name".data) ("f.pc".data)])) ∧
    (parse_line ctxStrict pkg ("Description: x".data) ("f.pc".data) =
      .error (.dupField ("Description".data) ("f.pc".data)) ∧
     parse_line ctxLax pkg ("Description: x".data) ("f.pc".data) =
      .ok (pkg, [.dupField ("Description".data) ("f.pc".data)])) ∧
    (parse_line ctxStrict pkg ("Version: x".data) ("f.pc".data) =
      .error (.dupField ("Version".data) ("f.pc".data)) ∧
     parse_line ctxLax pkg ("Version: x".data) ("f.pc".data) =
      .ok (pkg, [.dupField ("Version".data) ("f.pc".data)])) ∧
    (parse_line ctxStrict pkg ("URL: x".data) ("f.pc".data) =
      .error (.dupField ("URL".data) ("f.pc".data)) ∧
     parse_line ctxLax pkg ("URL: x".data) ("f.pc".data) =
      .ok (pkg, [.dupField ("URL".data) ("f.pc".data)])) ∧
    (parse_line ctxStrict pkg ("Cflags: -Iz".data) ("f.pc".data) =
      .error (.dupField ("Cflags".data) ("f.pc".data)) ∧
     parse_line ctxLax pkg ("Cflags: -Iz".data) ("f.pc".data) =
      .ok (pkg, [.dupField ("Cflags".data) ("f.pc".data)])) ∧
    (parse_line ctxStrict pkg ("Requires: m".data) ("f.pc".data) =
      .ok ({ pkg with requires_entries :=
        ⟨"m".data, .ALWAYS_MATCH, none, pkg.key⟩ :: pkg.requires_entries }, []) ∧
     parse_line ctxStrict pkg ("Requires.private: m".data) ("f.pc".data) =
      .ok ({ pkg with requires_private_entries :=
        ⟨"m".data, .ALWAYS_MATCH, none, pkg.key⟩ :: pkg.requires_private_entries }, []) ∧
     parse_line ctxStrict pkg ("Conflicts: m".data) ("f.pc".data) =
      .ok ({ pkg with conflicts :=
        ⟨"m".data, .ALWAYS_MATCH, none, pkg.key⟩ :: pkg.conflicts }, []) ∧
     parse_line ctxStrict pkg ("Libs: -lm".data) ("f.pc".data) =
      .ok ({ pkg with libs := ⟨.LIBS_l, "-lm".data⟩ :: pkg.libs }, []) ∧
     parse_line ctxStrict pkg ("Libs.private: -lm".data) ("f.pc".data) =
      .ok ({ pkg with libs_private := ⟨.LIBS_l, "-lm".data⟩ :: pkg.libs_private }, [])) := by
  refine ⟨⟨?_, ?_⟩, ⟨?_, ?_⟩, ⟨?_, ?_⟩, ⟨?_, ?_⟩, ⟨?_, ?_⟩, rfl, rfl, rfl, rfl, rfl⟩
  · show parse_name ctxStrict pkg ("x".data) ("f.pc".data) = _
    rw [parse_name, if_pos hn]
    rfl
  · show parse_name ctxLax pkg ("x".data) ("f.pc".data) = _
    rw [parse_name, if_pos hn]
    rfl
  · show parse_description ctxStrict pkg ("x".data) ("f.pc".data) = _
    rw [parse_description, if_pos hd]
    rfl
  · show parse_description ctxLax pkg ("x".data) ("f.pc".data) = _
    rw [parse_description, if_pos hd]
    rfl
  · show parse_version ctxStrict pkg ("x".data) ("f.pc".data) = _
    rw [parse_version, if_pos hv]
    rfl
  · show parse_version ctxLax pkg ("x".data) ("f.pc".data) = _
    rw [parse_version, if_pos hv]
    rfl
  · show parse_url ctxStrict pkg ("x".data) ("f.pc".data) = _
    rw [parse_url, if_pos hu]
    rfl
  · show parse_url ctxLax pkg ("x".data) ("f.pc".data) = _
    rw [parse_url, if_pos hu]
    rfl
  · show parse_cflags ctxStrict pkg ("-Iz".data) ("f.pc".data) = _
    rw [parse_cflags, if_pos hc]
    rfl
  · show parse_cflags ctxLax pkg ("-Iz".data) ("f.pc".data) = _
    rw [parse_cflags, if_pos hc]
    rfl

/-- A fully populated descriptor state instantiating the hypotheses of
the C6 theorem. -/
def pkg6full : ParsePkg := {
  key := "p".data, name := some "n".data, version := some "1".data,
  description := some "d".data, url := some "u".data,
  pcfiledir := "/dir".data, vars := [("pcfiledir".data, "/dir".data)],
  origPfx := none,
  requires_entries := [], requires_private_entries := [], conflicts := [],
  cflags := [⟨.CFLAGS_I, "-Ia".data⟩], libs := [], libs_private := [] }

/-- Witness for the C6 theorem at the concrete state `pkg6full`. -/
theorem C6_duplicate_field_handling_witness :
    (pkg6full.name ≠ none ∧ pkg6full.description ≠ none ∧ pkg6full.version ≠ none ∧
      pkg6full.url ≠ none ∧ pkg6full.cflags ≠ []) ∧
    parse_line ctxStrict pkg6full ("Name: x".data) ("f.pc".data) =
      .error (.dupField ("Name".data) ("f.pc".data)) ∧
    parse_line ctxStrict pkg6full ("Requires: m".data) ("f.pc".data) =
      .ok ({ pkg6full with requires_entries :=
        [⟨"m".data, .ALWAYS_MATCH, none, "p".data⟩] }, []) := by
  have h := C6_duplicate_field_handling pkg6full (by decide) (by decide) (by decide)
    (by decide) (by decide)
  exact ⟨⟨by decide, by decide, by decide, by decide, by decide⟩, h.1.1, h.2.2.2.2.2.1⟩

/-- C7 counterexample: in lax mode an unknown version-comparison operator
does NOT make the parser skip the whole triple - the `RequiredVersion`
was prepended to the list before the operator check, so an entry named
`foo` (with comparison `ALWAYS_MATCH` and no version) remains in the
resulting list next to the diagnostic. -/
theorem C7_counterexample :
    do_parse_module_list ctxLax ("p".data) [] ("foo == 1.0".data) ("f.pc".data) =
      .ok ([⟨"foo".data, .ALWAYS_MATCH, none, "p".data⟩],
        [.unknownOperator ("==".data) ("foo".data) ("f.pc".data)]) ∧
    (⟨"foo".data, .ALWAYS_MATCH, none, "p".data⟩ : RequiredVersion).name = "foo".data := by
  exact ⟨rfl, rfl⟩

/-- C7 (amended): an unrecognized operator is reported; under
`parse_strict` the process aborts, while in lax mode the operator and the
version are discarded but the already-inserted `RequiredVersion` entry for
the module remains, with comparison `ALWAYS_MATCH` and no version. -/
theorem C7_unknown_operator_handling :
    do_parse_module_list ctxStrict ("p".data) [] ("foo == 1.0".data) ("f.pc".data) =
      .error (.unknownOperator ("==".data) ("foo".data) ("f.pc".data)) ∧
    do_parse_module_list ctxLax ("p".data) [] ("foo <> 2".data) ("f.pc".data) =
      .ok ([⟨"foo".data, .ALWAYS_MATCH, none, "p".data⟩],
        [.unknownOperator ("<>".data) ("foo".data) ("f.pc".data)]) := by
  exact ⟨rfl, rfl⟩

end PkgConfig
